import Mathlib

set_option maxRecDepth 100000

/-!
Shallow embedding of the MongoDeck backend core (src/server.js):
the connection cache (`getClient`, the `close` handler) and the
command endpoint (`app.post('/api/command')`), together with the
JSON.parse / regex machinery those code paths use.

Command texts are modelled as `List Char`.  JavaScript's `JSON.parse`
is modelled by `jsonParse` (strict JSON grammar).  Each regular
expression of the source is modelled by a dedicated scanning function
whose deterministic behaviour coincides with the JS engine's
leftmost-match-with-greedy-quantifiers semantics for that pattern
(each pattern used in the source admits no backtracking ambiguity).
-/

/-- ASCII lowercasing of one character, modelling JS `toLowerCase` on the
ASCII range (the only range the command grammar of src/server.js uses):
the 26 uppercase letters map to their lowercase forms, everything else
is unchanged. -/
def lowerChar (c : Char) : Char :=
  if c == 'A' then 'a' else if c == 'B' then 'b' else if c == 'C' then 'c'
  else if c == 'D' then 'd' else if c == 'E' then 'e' else if c == 'F' then 'f'
  else if c == 'G' then 'g' else if c == 'H' then 'h' else if c == 'I' then 'i'
  else if c == 'J' then 'j' else if c == 'K' then 'k' else if c == 'L' then 'l'
  else if c == 'M' then 'm' else if c == 'N' then 'n' else if c == 'O' then 'o'
  else if c == 'P' then 'p' else if c == 'Q' then 'q' else if c == 'R' then 'r'
  else if c == 'S' then 's' else if c == 'T' then 't' else if c == 'U' then 'u'
  else if c == 'V' then 'v' else if c == 'W' then 'w' else if c == 'X' then 'x'
  else if c == 'Y' then 'y' else if c == 'Z' then 'z' else c

/-- Lowercase a character list, modelling `String.prototype.toLowerCase`. -/
def lowerAscii (l : List Char) : List Char := l.map lowerChar

/-- Whitespace for JS `String.trim` and the regex class `\s` (ASCII part). -/
def isWs (c : Char) : Bool :=
  c == ' ' || c == Char.ofNat 9 || c == Char.ofNat 10 || c == Char.ofNat 11 ||
  c == Char.ofNat 12 || c == Char.ofNat 13

/-- Left part of JS `String.trim`. -/
def trimLeft (l : List Char) : List Char := l.dropWhile isWs

/-- Right part of JS `String.trim`. -/
def trimRight (l : List Char) : List Char := (l.reverse.dropWhile isWs).reverse

/-- JS `String.prototype.trim`. -/
def trimList (l : List Char) : List Char := trimRight (trimLeft l)

/-- JS regex word character class `\w` = `[A-Za-z0-9_]`. -/
def isWordChar (c : Char) : Bool :=
  ('a' ≤ c && c ≤ 'z') || ('A' ≤ c && c ≤ 'Z') || ('0' ≤ c && c ≤ '9') || c == '_'

/-- Decimal digit test, JS regex class `\d`. -/
def isDigitC (c : Char) : Bool := '0' ≤ c && c ≤ '9'

/-- JS regex line terminators, which `.` in `/^([\w]+)\.([\w]+)(.*)$/i`
does not match. -/
def isLineTerm (c : Char) : Bool :=
  c == Char.ofNat 10 || c == Char.ofNat 13 ||
  c == Char.ofNat 0x2028 || c == Char.ofNat 0x2029

/-- Boolean literal-prefix test on character lists
(first argument is the pattern). -/
def listStartsWith : List Char → List Char → Bool
  | [], _ => true
  | _ :: _, [] => false
  | p :: ps, c :: cs => p == c && listStartsWith ps cs

/-- Case-insensitive literal-prefix stripping: the pattern is given in
lowercase, the input char is lowered before comparison.  Returns the
remainder after the pattern on success. -/
def ciStrip : List Char → List Char → Option (List Char)
  | [], s => some s
  | _ :: _, [] => none
  | p :: ps, c :: cs => if lowerChar c == p then ciStrip ps cs else none

/-- Value of a decimal digit string, modelling `parseInt` on an
all-digit capture. -/
def decimalVal (ds : List Char) : Nat :=
  ds.foldl (fun a c => a * 10 + (c.toNat - 48)) 0

/-- Conversion from Lean string literals to the character-list model. -/
def strL (s : String) : List Char := s.data

/-! JSON values, as produced by `JSON.parse`.  Number tokens keep their
lexeme: none of the modelled code paths inspect numeric values of a
parsed document. -/

inductive Json where
  | null
  | bool (b : Bool)
  | num (lex : List Char)
  | str (s : List Char)
  | arr (elems : List Json)
  | obj (fields : List (List Char × Json))

/-- JSON insignificant whitespace (space, tab, line feed, carriage return). -/
def isJsonWs (c : Char) : Bool :=
  c == ' ' || c == Char.ofNat 9 || c == Char.ofNat 10 || c == Char.ofNat 13

/-- Skip JSON whitespace. -/
def jskip (l : List Char) : List Char := l.dropWhile isJsonWs

/-- Hexadecimal digit test for `\uXXXX` escapes. -/
def isHexC (c : Char) : Bool :=
  isDigitC c || ('a' ≤ c && c ≤ 'f') || ('A' ≤ c && c ≤ 'F')

/-- Value of a hexadecimal digit. -/
def hexVal (c : Char) : Nat :=
  if isDigitC c then c.toNat - 48
  else if 'a' ≤ c && c ≤ 'f' then c.toNat - 87
  else c.toNat - 55

/-- Single-character JSON string escapes. -/
def escCode (e : Char) : Option Char :=
  if e == Char.ofNat 34 then some (Char.ofNat 34)
  else if e == Char.ofNat 92 then some (Char.ofNat 92)
  else if e == '/' then some '/'
  else if e == 'b' then some (Char.ofNat 8)
  else if e == 'f' then some (Char.ofNat 12)
  else if e == 'n' then some (Char.ofNat 10)
  else if e == 'r' then some (Char.ofNat 13)
  else if e == 't' then some (Char.ofNat 9)
  else none

/-- JSON string body (after the opening quote): returns the decoded
characters and the remainder after the closing quote. -/
def parseStr : Nat → List Char → Option (List Char × List Char)
  | 0, _ => none
  | _ + 1, [] => none
  | fuel + 1, c :: rest =>
    if c == Char.ofNat 34 then some ([], rest)
    else if c == Char.ofNat 92 then
      match rest with
      | [] => none
      | 'u' :: h1 :: h2 :: h3 :: h4 :: rest3 =>
        if isHexC h1 && isHexC h2 && isHexC h3 && isHexC h4 then
          (parseStr fuel rest3).map (fun p =>
            (Char.ofNat (((hexVal h1 * 16 + hexVal h2) * 16 + hexVal h3) * 16
              + hexVal h4) :: p.1, p.2))
        else none
      | e :: rest2 =>
        match escCode e with
        | some d => (parseStr fuel rest2).map (fun p => (d :: p.1, p.2))
        | none => none
    else if c.toNat < 32 then none
    else (parseStr fuel rest).map (fun p => (c :: p.1, p.2))

/-- JSON number token: returns the lexeme and the remainder. -/
def parseNum (l : List Char) : Option (List Char × List Char) :=
  let sr : List Char × List Char :=
    match l with
    | '-' :: t => (['-'], t)
    | _ => ([], l)
  let sign := sr.1
  let r1 := sr.2
  match r1 with
  | [] => none
  | c :: _ =>
    if isDigitC c then
      let ip := if c == '0' then ['0'] else r1.takeWhile isDigitC
      let r2 := r1.drop ip.length
      let fr : Option (List Char × List Char) :=
        match r2 with
        | '.' :: t =>
          let fd := t.takeWhile isDigitC
          if fd.isEmpty then none else some ('.' :: fd, t.drop fd.length)
        | _ => some ([], r2)
      match fr with
      | none => none
      | some (fpart, r3) =>
        let ex : Option (List Char × List Char) :=
          match r3 with
          | e :: t =>
            if e == 'e' || e == 'E' then
              let st : List Char × List Char :=
                match t with
                | s :: t2 => if s == '+' || s == '-' then ([s], t2) else ([], t)
                | [] => ([], t)
              let ed := st.2.takeWhile isDigitC
              if ed.isEmpty then none
              else some (e :: (st.1 ++ ed), st.2.drop ed.length)
            else some ([], r3)
          | [] => some ([], r3)
        match ex with
        | none => none
        | some (epart, r4) => some (sign ++ ip ++ fpart ++ epart, r4)
    else none

mutual

/-- JSON value (input must start at a value, whitespace already skipped). -/
def parseValue : Nat → List Char → Option (Json × List Char)
  | 0, _ => none
  | fuel + 1, l =>
    match l with
    | [] => none
    | c :: rest =>
      if c == Char.ofNat 34 then
        (parseStr fuel rest).map (fun p => (Json.str p.1, p.2))
      else if c == Char.ofNat 123 then
        parseObjFields fuel (jskip rest) []
      else if c == Char.ofNat 91 then
        parseArrElems fuel (jskip rest) []
      else if c == 't' then
        if listStartsWith (strL "rue") rest then some (Json.bool true, rest.drop 3)
        else none
      else if c == 'f' then
        if listStartsWith (strL "alse") rest then some (Json.bool false, rest.drop 4)
        else none
      else if c == 'n' then
        if listStartsWith (strL "ull") rest then some (Json.null, rest.drop 3)
        else none
      else if c == '-' || isDigitC c then
        (parseNum l).map (fun p => (Json.num p.1, p.2))
      else none

/-- JSON object members (input after the opening brace, whitespace skipped). -/
def parseObjFields : Nat → List Char → List (List Char × Json) →
    Option (Json × List Char)
  | 0, _, _ => none
  | fuel + 1, l, acc =>
    match l with
    | [] => none
    | c :: rest =>
      if acc.isEmpty && c == Char.ofNat 125 then some (Json.obj [], rest)
      else if c == Char.ofNat 34 then
        match parseStr fuel rest with
        | none => none
        | some (key, r2) =>
          match jskip r2 with
          | ':' :: r3 =>
            match parseValue fuel (jskip r3) with
            | none => none
            | some (v, r4) =>
              match jskip r4 with
              | ',' :: r5 => parseObjFields fuel (jskip r5) (acc ++ [(key, v)])
              | c2 :: r5 =>
                if c2 == Char.ofNat 125 then some (Json.obj (acc ++ [(key, v)]), r5)
                else none
              | [] => none
          | _ => none
      else none

/-- JSON array elements (input after the opening bracket, whitespace skipped). -/
def parseArrElems : Nat → List Char → List Json → Option (Json × List Char)
  | 0, _, _ => none
  | fuel + 1, l, acc =>
    match l with
    | [] => none
    | c :: rest =>
      if acc.isEmpty && c == Char.ofNat 93 then some (Json.arr [], rest)
      else
        match parseValue fuel l with
        | none => none
        | some (v, r2) =>
          match jskip r2 with
          | ',' :: r3 => parseArrElems fuel (jskip r3) (acc ++ [v])
          | c2 :: r3 =>
            if c2 == Char.ofNat 93 then some (Json.arr (acc ++ [v]), r3)
            else none
          | [] => none

end

/-- Model of `JSON.parse`: the whole text must be one JSON value
surrounded by optional whitespace; `none` models a thrown SyntaxError. -/
def jsonParse (l : List Char) : Option Json :=
  match parseValue (4 * l.length + 16) (jskip l) with
  | some (j, r) => if jskip r = [] then some j else none
  | none => none

/-! Database operations that the command endpoint can dispatch.  Each
constructor corresponds to exactly one driver call site in
`app.post('/api/command')` of src/server.js. -/

inductive DbOp where
  | command (doc : Json)
  | adminCommand (doc : Json)
  | find (col : List Char) (filter : Json) (limit : Nat)
  | findOne (col : List Char) (filter : Json)
  | countDocuments (col : List Char) (filter : Json)
  | aggregate (col : List Char) (pipeline : Json)
  | createIndex (col : List Char) (spec : Json)
  | dropColl (col : List Char)
  | listDatabases
  | listCollections
  | stats
  | serverStatus
  | dropDatabase
  | createCollection (name : List Char)

/-- Error message thrown at src/server.js line 389. -/
def msgInvalidColMethod : List Char :=
  strL "Invalid collection method syntax. Use: db.collectionName.method()"

/-- Error message thrown at src/server.js lines 399 and 402. -/
def msgInvalidAdmin : List Char :=
  strL "Invalid adminCommand syntax. Use: db.adminCommand(\x7b command: \"value\" \x7d)"

/-- Error message thrown at src/server.js lines 411 and 414. -/
def msgInvalidRun : List Char :=
  strL "Invalid runCommand syntax. Use: db.runCommand(\x7b command: \"value\" \x7d)"

/-- Error message thrown at src/server.js line 433. -/
def msgInvalidCreateColShell : List Char :=
  strL "Invalid createCollection syntax. Use: db.createCollection(\"name\")"

/-- Error message thrown at src/server.js line 440. -/
def msgInvalidDropColShell : List Char :=
  strL "Invalid dropCollection syntax. Use: db.dropCollection(\"name\")"

/-- Error message thrown at src/server.js line 386. -/
def msgUnsupportedColMethod (method : List Char) : List Char :=
  strL "Unsupported collection method: " ++ method ++
  strL ". Try: find(), findOne(), countDocuments(), aggregate(), createIndex(), drop()"

/-- Error message thrown at src/server.js line 443. -/
def msgUnsupportedDbMethod (dbMethod : List Char) : List Char :=
  strL "Unsupported db method: " ++ dbMethod ++
  strL (". Try: db.listDatabases(), db.listCollections(), db.stats(), " ++
    "db.serverStatus(), db.dropDatabase(), db.createCollection(\"name\"), " ++
    "db.dropCollection(\"name\"), db.collectionName.find(), " ++
    "db.collectionName.findOne(), db.collectionName.countDocuments(), " ++
    "db.collectionName.aggregate(), db.collectionName.createIndex(), " ++
    "db.collectionName.drop()")

/-- Error message thrown at src/server.js line 466. -/
def msgInvalidCreateColBare : List Char :=
  strL "Invalid createCollection syntax. Use: createCollection <name>"

/-- Error message thrown at src/server.js line 473. -/
def msgInvalidDropColBare : List Char :=
  strL "Invalid dropCollection syntax. Use: dropCollection <name>"

/-- Error message thrown at src/server.js line 476 (interpolates the
original, untrimmed command text). -/
def msgUnsupportedCommand (command : List Char) : List Char :=
  strL "Unsupported command: " ++ command ++
  strL (". Try using mongosh syntax: db.collectionName.find(), " ++
    "db.listDatabases(), db.stats(), etc.")

/-- One attempt of the regex `/needle\(([^)]*)\)/i` at the current
position: the needle (given lowercase, with its opening paren) matched
case-insensitively, then the capture of non-paren characters, then a
closing paren. -/
def parenArgAt (needle s : List Char) : Option (List Char) :=
  match ciStrip needle s with
  | none => none
  | some rest =>
    match rest.drop (rest.takeWhile (fun c => !(c == ')'))).length with
    | ')' :: _ => some (rest.takeWhile (fun c => !(c == ')')))
    | _ => none

/-- Leftmost match of `/needle\(([^)]*)\)/i`, as `String.prototype.match`
performs it; returns the capture group. -/
def searchParenArg (needle : List Char) : List Char → Option (List Char)
  | [] => none
  | c :: cs =>
    match parenArgAt needle (c :: cs) with
    | some cap => some cap
    | none => searchParenArg needle cs

/-- One attempt of `/limit\((\d+)\)/i` at the current position. -/
def limitArgAt (s : List Char) : Option (List Char) :=
  match ciStrip (strL "limit(") s with
  | none => none
  | some rest =>
    let ds := rest.takeWhile isDigitC
    if ds.isEmpty then none
    else
      match rest.drop ds.length with
      | ')' :: _ => some ds
      | _ => none

/-- Leftmost match of `/limit\((\d+)\)/i`; returns the digit capture. -/
def searchLimitArg : List Char → Option (List Char)
  | [] => none
  | c :: cs =>
    match limitArgAt (c :: cs) with
    | some ds => some ds
    | none => searchLimitArg cs

/-- Quote characters accepted by the class `['"]`. -/
def isQuote (c : Char) : Bool := c == Char.ofNat 34 || c == Char.ofNat 39

/-- One attempt of the regex `/needle\(['"](\w+)['"]\)/i` at the current
position (needle given lowercase with its opening paren). -/
def quotedNameAt (needle s : List Char) : Option (List Char) :=
  match ciStrip needle s with
  | none => none
  | some rest =>
    match rest with
    | [] => none
    | q :: rest2 =>
      if isQuote q then
        let w := rest2.takeWhile isWordChar
        if w.isEmpty then none
        else
          match rest2.drop w.length with
          | q2 :: ')' :: _ => if isQuote q2 then some w else none
          | _ => none
      else none

/-- Leftmost match of `/needle\(['"](\w+)['"]\)/i`; returns the name capture. -/
def searchQuotedName (needle : List Char) : List Char → Option (List Char)
  | [] => none
  | c :: cs =>
    match quotedNameAt needle (c :: cs) with
    | some w => some w
    | none => searchQuotedName needle cs

/-- Tail of `/kw\s+(\w+)/` after the keyword literal: at least one
whitespace, then the greedy word capture. -/
def wsName (rest : List Char) : Option (List Char) :=
  if (rest.takeWhile isWs).isEmpty then none
  else
    if ((rest.drop (rest.takeWhile isWs).length).takeWhile isWordChar).isEmpty then none
    else some ((rest.drop (rest.takeWhile isWs).length).takeWhile isWordChar)

/-- One attempt of the regex `/kw\s+(\w+)/` at the current position
(case-sensitive; the source applies it to the lowercased input). -/
def kwNameAt (kw s : List Char) : Option (List Char) :=
  if listStartsWith kw s then wsName (s.drop kw.length)
  else none

/-- Leftmost match of `/kw\s+(\w+)/`; returns the name capture. -/
def searchKwName (kw : List Char) : List Char → Option (List Char)
  | [] => none
  | c :: cs =>
    match kwNameAt kw (c :: cs) with
    | some w => some w
    | none => searchKwName kw cs

/-- Test of `trimmed.match(/^db\./i)` (src/server.js line 312). -/
def dbGuard : List Char → Bool
  | c1 :: c2 :: c3 :: _ => lowerChar c1 == 'd' && lowerChar c2 == 'b' && c3 == '.'
  | _ => false

/-- Test of `dbMethod.match(/^[\w]+\./)` (src/server.js line 316). -/
def colGuard (dm : List Char) : Bool :=
  let w := dm.takeWhile isWordChar
  !w.isEmpty && listStartsWith ['.'] (dm.drop w.length)

/-- Match of `dbMethod.match(/^([\w]+)\.([\w]+)(.*)$/i)` (src/server.js
line 317): both groups are maximal word-character runs (the engine's
greedy matching leaves no other possibility), and `.` together with the
unanchored-by-`/m` `$` forces the remainder to contain no line
terminator. -/
def colSplit (dm : List Char) : Option (List Char × List Char × List Char) :=
  let g1 := dm.takeWhile isWordChar
  if g1.isEmpty then none
  else
    match dm.drop g1.length with
    | '.' :: rest2 =>
      let g2 := rest2.takeWhile isWordChar
      if g2.isEmpty then none
      else
        let rest3 := rest2.drop g2.length
        if rest3.all (fun c => !(isLineTerm c)) then some (g1, g2, rest3) else none
    | _ => none

/-- Optional JSON argument extraction with silent default, the pattern
used for find/findOne/countDocuments/aggregate/createIndex arguments
(src/server.js lines 330-338 etc.): if the regex does not match, or the
capture trims to empty, or `JSON.parse` of the capture throws, the
default is kept. -/
def jsonArgOr (needle args : List Char) (dflt : Json) : Json :=
  match searchParenArg needle args with
  | none => dflt
  | some cap =>
    if (trimList cap).isEmpty then dflt
    else
      match jsonParse cap with
      | some j => j
      | none => dflt

/-- The `db.`-prefixed part of the shell-style interpretation
(src/server.js lines 312-444), as a function of the extracted
`dbMethod` text: which single database operation it would invoke, or
the message of the `Error` it throws before invoking any. -/
def dbBranch (dbMethod : List Char) : Except (List Char) DbOp :=
  if colGuard dbMethod then
      match colSplit dbMethod with
      | none => .error msgInvalidColMethod
      | some (colName, g2, args) =>
        let method := lowerAscii g2
        if method = strL "find" then
          .ok (.find colName (jsonArgOr (strL "find(") args (Json.obj []))
            (match searchLimitArg args with
             | some ds => decimalVal ds
             | none => 10))
        else if method = strL "findone" then
          .ok (.findOne colName (jsonArgOr (strL "findone(") args (Json.obj [])))
        else if method = strL "countdocuments" then
          .ok (.countDocuments colName
            (jsonArgOr (strL "countdocuments(") args (Json.obj [])))
        else if method = strL "aggregate" then
          .ok (.aggregate colName (jsonArgOr (strL "aggregate(") args (Json.arr [])))
        else if method = strL "createindex" then
          .ok (.createIndex colName
            (jsonArgOr (strL "createindex(") args (Json.obj [])))
        else if method = strL "drop" then
          .ok (.dropColl colName)
        else
          .error (msgUnsupportedColMethod method)
    else if (ciStrip (strL "admincommand(") dbMethod).isSome then
      match searchParenArg (strL "admincommand(") dbMethod with
      | some cap =>
        match jsonParse cap with
        | some doc => .ok (.adminCommand doc)
        | none => .error msgInvalidAdmin
      | none => .error msgInvalidAdmin
    else if (ciStrip (strL "runcommand(") dbMethod).isSome then
      match searchParenArg (strL "runcommand(") dbMethod with
      | some cap =>
        match jsonParse cap with
        | some doc => .ok (.command doc)
        | none => .error msgInvalidRun
      | none => .error msgInvalidRun
    else if (ciStrip (strL "listdatabases()") dbMethod).isSome then
      .ok .listDatabases
    else if (ciStrip (strL "listcollections()") dbMethod).isSome then
      .ok .listCollections
    else if (ciStrip (strL "stats()") dbMethod).isSome then
      .ok .stats
    else if (ciStrip (strL "serverstatus()") dbMethod).isSome then
      .ok .serverStatus
    else if (ciStrip (strL "dropdatabase()") dbMethod).isSome then
      .ok .dropDatabase
    else if (ciStrip (strL "createcollection(") dbMethod).isSome then
      match searchQuotedName (strL "createcollection(") dbMethod with
      | some nm => .ok (.createCollection nm)
      | none => .error msgInvalidCreateColShell
    else if (ciStrip (strL "dropcollection(") dbMethod).isSome then
      match searchQuotedName (strL "dropcollection(") dbMethod with
      | some nm => .ok (.dropColl nm)
      | none => .error msgInvalidDropColShell
    else
      .error (msgUnsupportedDbMethod dbMethod)

/-- The bare-keyword part of the shell-style interpretation
(src/server.js lines 446-477).  `command` is the original untrimmed
text (used in the final diagnostic), `lt` the lowercased trimmed text
the source computes as `lowerTrimmed`. -/
def bareClassify (command lt : List Char) : Except (List Char) DbOp :=
  if lt = strL "stats" ∨ lt = strL "dbstats" then .ok .stats
    else if lt = strL "serverstatus" then .ok .serverStatus
    else if listStartsWith (strL "listdatabases") lt then .ok .listDatabases
    else if listStartsWith (strL "listcollections") lt then .ok .listCollections
    else if listStartsWith (strL "dropdatabase") lt then .ok .dropDatabase
    else if listStartsWith (strL "createcollection") lt then
      match searchKwName (strL "createcollection") lt with
      | some nm => .ok (.createCollection nm)
      | none => .error msgInvalidCreateColBare
    else if listStartsWith (strL "dropcollection") lt then
      match searchKwName (strL "dropcollection") lt with
      | some nm => .ok (.dropColl nm)
      | none => .error msgInvalidDropColBare
    else
      .error (msgUnsupportedCommand command)

/-- The shell-style interpretation performed in the catch block of
`app.post('/api/command')` (src/server.js lines 306-478), factored as a
pure classification: which single database operation the branch would
invoke, or the message of the `Error` it throws before invoking any.
The argument is the raw command text; trimming and lowercasing happen
exactly as in the source: `trimmed = command.trim()`, then for the
`db.` branch `dbMethod = trimmed.substring(3).trim()`, and for the
bare branch `lowerTrimmed = trimmed.toLowerCase()`. -/
def shellClassify (command : List Char) : Except (List Char) DbOp :=
  if dbGuard (trimList command) then
    dbBranch (trimList ((trimList command).drop 3))
  else
    bareClassify command (lowerAscii (trimList command))

/-- The spec's `ParsedCommand` tagged union, realised from the code's
classification logic: structured form first, shell form second. -/
inductive ParsedCommand where
  | raw (doc : Json)
  | action (op : DbOp)
  | unrecognized (reason : List Char)

/-- The spec's `parse`: strict JSON first (`RawCommand`), then the
shell-style grammar, with every failure collapsing to `unrecognized`. -/
def parseCommand (command : List Char) : ParsedCommand :=
  match jsonParse command with
  | some doc => .raw doc
  | none =>
    match shellClassify command with
    | .ok op => .action op
    | .error msg => .unrecognized msg

/-- HTTP response of the command endpoint: the status code plus the
fields the handler actually serialises (`none` = field absent from the
JSON body). -/
structure Response where
  status : Nat
  success : Option Bool
  result : Option Json
  error : Option (List Char)
  executionTime : Option Int

/-- Body of `res.json(\x7b success: true, result, executionTime \x7d)`
(src/server.js lines 481-485). -/
def okResp (r : Json) (dt : Int) : Response :=
  ⟨200, some true, some r, none, some dt⟩

/-- Body of `res.status(500).json(\x7b success: false, error \x7d)`
(src/server.js lines 486-491): note there is no executionTime field. -/
def failResp (e : List Char) : Response :=
  ⟨500, some false, none, some e, none⟩

/-- Body of `res.status(400).json(\x7b error \x7d)` (src/server.js line 296). -/
def badResp (e : List Char) : Response :=
  ⟨400, none, none, some e, none⟩

/-- Outcome of one request to the command endpoint: the database
operations attempted, in order, and the HTTP response. -/
structure ExecOutcome where
  ops : List DbOp
  response : Response

/-- Execution of the shell-style catch block: a classification failure
is thrown to the outer catch (500, with the parser's message); a
classified operation is dispatched once, its failure likewise reaching
the outer catch with the driver's message.  The environment `dbRun`
gives each operation's outcome. -/
def shellRun (dbRun : DbOp → Except (List Char) Json) (command : List Char)
    (t0 t1 : Int) : ExecOutcome :=
  match shellClassify command with
  | .error msg => ⟨[], failResp msg⟩
  | .ok op =>
    match dbRun op with
    | .ok r => ⟨[op], okResp r (t1 - t0)⟩
    | .error e => ⟨[op], failResp e⟩

/-- The whole `app.post('/api/command')` handler (src/server.js lines
293-492).  `t0` is `Date.now()` at entry, `t1` at response time.  The
structure mirrors the source faithfully: a successfully JSON-parsed
command is dispatched as `db.command`, and — because the catch around
it also catches the driver's rejection — a failing `db.command` falls
through to the shell-style interpretation of the same text. -/
def executeCommand (dbRun : DbOp → Except (List Char) Json)
    (command : List Char) (t0 t1 : Int) : ExecOutcome :=
  if command.isEmpty then ⟨[], badResp (strL "Command is required")⟩
  else
    match jsonParse command with
    | some doc =>
      match dbRun (.command doc) with
      | .ok r => ⟨[.command doc], okResp r (t1 - t0)⟩
      | .error _ =>
        let sh := shellRun dbRun command t0 t1
        ⟨.command doc :: sh.ops, sh.response⟩
    | none => shellRun dbRun command t0 t1

/-! Small-step model of the connection cache (src/server.js lines
19-35).  One connection key is modelled (the `clients` map binds the
keys independently).  A `getClient` call is a task: it atomically
checks the cache and, on a miss, creates a client and begins
`await client.connect()` (state `connecting`); when the await resumes
it stores the client in the cache, registers the close handler and
returns the client it just stored (state `done`).  A task that hits
the cache returns the cached client at once.  `attempts` counts
`new MongoClient` + `connect()` calls. -/

inductive TaskPc where
  | start
  | connecting (id : Nat)
  | done (id : Nat)
deriving DecidableEq

/-- State of the registry for one key, plus the program counters of the
in-flight `getClient` calls. -/
structure RegState where
  cache : Option Nat
  nextId : Nat
  attempts : Nat
  tasks : List TaskPc
deriving DecidableEq

/-- One scheduler step: run task `i` until its next suspension point or
its return (the two code points of `getClient` between which the event
loop can interleave other tasks). -/
def getClientStep (s : RegState) (i : Nat) : RegState :=
  match s.tasks.get? i with
  | some .start =>
    match s.cache with
    | some c => { s with tasks := s.tasks.set i (.done c) }
    | none =>
      { s with nextId := s.nextId + 1, attempts := s.attempts + 1,
               tasks := s.tasks.set i (.connecting s.nextId) }
  | some (.connecting id) =>
    { s with cache := some id, tasks := s.tasks.set i (.done id) }
  | _ => s

/-- Run a schedule (a list of task indices) from a state. -/
def getClientRun (s : RegState) : List Nat → RegState
  | [] => s
  | i :: rest => getClientRun (getClientStep s i) rest

/-- Initial state: empty cache, `n` concurrent `getClient` callers. -/
def regInit (n : Nat) : RegState := ⟨none, 0, 0, List.replicate n .start⟩

/-- The `close` handler registered on a created client (src/server.js
lines 30-32): `delete clients[uri]` — it clears the key's entry
unconditionally. -/
def closeHandler (s : RegState) : RegState := { s with cache := none }

/-! Helper lemmas about list indexing. -/

theorem get?_some_lt {α : Type} {l : List α} {i : Nat} {x : α}
    (h : l.get? i = some x) : i < l.length := by
  induction l generalizing i with
  | nil => cases h
  | cons a t ih =>
    cases i with
    | zero => exact Nat.succ_pos _
    | succ j => exact Nat.succ_lt_succ (ih h)

theorem get?_set_self {α : Type} (l : List α) (i : Nat) (a : α)
    (h : i < l.length) : (l.set i a).get? i = some a := by
  induction l generalizing i with
  | nil => cases h
  | cons b t ih =>
    cases i with
    | zero => rfl
    | succ j => exact ih j (Nat.lt_of_succ_lt_succ h)

/-- Environment in which every database operation succeeds with `null`. -/
def dbRunOkAll : DbOp → Except (List Char) Json := fun _ => .ok Json.null

/-- Environment in which the generic `db.command` dispatch is rejected
by the server and every other operation succeeds. -/
def dbRunRejectCommand : DbOp → Except (List Char) Json := fun op =>
  match op with
  | .command _ => .error (strL "no such command: unknownCmd")
  | _ => .ok Json.null

/-- C1, counterexample.  The claim says any number of concurrent
`getClient(K)` calls for an unseen key make exactly one connection
attempt and all receive the same handle.  In the interleaving where
both callers pass the `!clients[uri]` check before either
`await client.connect()` resumes (schedule 0,1,0,1 from two fresh
tasks), two connection attempts are made and the callers return the
distinct handles 0 and 1: the cache is only populated after the await,
so the check-then-create is not atomic. -/
theorem c1_counterexample :
    (getClientRun (regInit 2) [0, 1, 0, 1]).attempts = 2 ∧
    (getClientRun (regInit 2) [0, 1, 0, 1]).tasks = [.done 0, .done 1] :=
  ⟨rfl, rfl⟩

/-- C1, amended.  A `getClient` call that observes a populated cache
makes no new connection attempt, leaves the cache unchanged and
returns the cached handle; consequently strictly sequential callers
(schedule 0,0,1,1) produce exactly one attempt and share one handle.
Concurrent first callers, however, may each attempt a connection (see
the counterexample). -/
theorem c1_theorem (s : RegState) (i c : Nat)
    (hc : s.cache = some c) (ht : s.tasks.get? i = some .start) :
    (getClientStep s i).attempts = s.attempts ∧
    (getClientStep s i).cache = s.cache ∧
    (getClientStep s i).tasks.get? i = some (.done c) ∧
    getClientRun (regInit 2) [0, 0, 1, 1] = ⟨some 0, 1, 1, [.done 0, .done 0]⟩ := by
  have hlt := get?_some_lt ht
  have hstep : getClientStep s i = { s with tasks := s.tasks.set i (.done c) } := by
    unfold getClientStep
    rw [ht, hc]
  rw [hstep]
  exact ⟨rfl, rfl, get?_set_self _ _ _ hlt, rfl⟩

/-- C1, witness for the amended theorem at a concrete state: one task
at its entry point, cache already holding handle 5. -/
theorem c1_witness :
    (getClientStep ⟨some 5, 6, 1, [.start]⟩ 0).attempts = 1 ∧
    (getClientStep ⟨some 5, 6, 1, [.start]⟩ 0).tasks.get? 0 = some (.done 5) :=
  ⟨(c1_theorem ⟨some 5, 6, 1, [.start]⟩ 0 5 rfl rfl).1,
   (c1_theorem ⟨some 5, 6, 1, [.start]⟩ 0 5 rfl rfl).2.2.1⟩

/-- C7.  The key's map slot (`cache : Option Nat`) holds at most one
connection by construction, mirroring `clients[uri]`.  When a close
notification fires, the handler removes the key's entry
(`delete clients[uri]`), and a repeated close is a no-op (removal
happens exactly once); a subsequent `getClient` observing the empty
cache performs a fresh connection attempt whose handle is new —
distinct from any previously issued (stale) handle. -/
theorem c7_theorem (s t : RegState) (i stale : Nat)
    (ht : t.cache = none) (htask : t.tasks.get? i = some .start)
    (hstale : stale < t.nextId) :
    (closeHandler s).cache = none ∧
    closeHandler (closeHandler s) = closeHandler s ∧
    (getClientStep t i).attempts = t.attempts + 1 ∧
    (getClientStep t i).tasks.get? i = some (.connecting t.nextId) ∧
    t.nextId ≠ stale := by
  have hlt := get?_some_lt htask
  have hstep : getClientStep t i =
      { t with nextId := t.nextId + 1, attempts := t.attempts + 1,
               tasks := t.tasks.set i (.connecting t.nextId) } := by
    unfold getClientStep
    rw [htask, ht]
  exact ⟨rfl, rfl, by rw [hstep], by rw [hstep]; exact get?_set_self _ _ _ hlt, by omega⟩

/-- C7, witness: cache emptied by a close, one fresh caller, stale
handle 2, next fresh id 3. -/
theorem c7_witness :
    (closeHandler ⟨some 9, 1, 1, []⟩).cache = none ∧
    (getClientStep ⟨none, 3, 1, [.start]⟩ 0).attempts = 2 ∧
    (getClientStep ⟨none, 3, 1, [.start]⟩ 0).tasks.get? 0 = some (.connecting 3) :=
  ⟨(c7_theorem ⟨some 9, 1, 1, []⟩ ⟨none, 3, 1, [.start]⟩ 0 2 rfl rfl (by decide)).1,
   (c7_theorem ⟨some 9, 1, 1, []⟩ ⟨none, 3, 1, [.start]⟩ 0 2 rfl rfl (by decide)).2.2.1,
   (c7_theorem ⟨some 9, 1, 1, []⟩ ⟨none, 3, 1, [.start]⟩ 0 2 rfl rfl (by decide)).2.2.2.1⟩

/-- C2.  The text parses as JSON and is dispatched verbatim as a
generic `db.command` — but when that call is rejected, the
`catch (parseError)` block runs the shell-style interpretation of the
very same text (contradicting the source's own comment, which reserves
the fallback for JSON *parse* failures): the final response carries
the shell parser's "Unsupported command" diagnostic instead of the
driver's error, proving shell parsing was attempted. -/
theorem c2_theorem :
    jsonParse (strL "\x7b\"unknownCmd\":1\x7d") =
      some (Json.obj [(strL "unknownCmd", Json.num (strL "1"))]) ∧
    executeCommand dbRunRejectCommand (strL "\x7b\"unknownCmd\":1\x7d") 0 7 =
      ⟨[.command (Json.obj [(strL "unknownCmd", Json.num (strL "1"))])],
       failResp (msgUnsupportedCommand (strL "\x7b\"unknownCmd\":1\x7d"))⟩ :=
  ⟨rfl, rfl⟩

/-- C8.  For the canonical shell command
`db.users.find({"age":{"$gt":21}}).limit(5)` the classifier yields the
find action with limit 5 but with the EMPTY filter, although the
filter text is valid JSON (second conjunct): the extraction regex
`/find\(([^)]*)\)/i` is applied to the args text, which begins after
the method name and therefore never contains `find(`. -/
theorem c8_theorem :
    shellClassify (strL "db.users.find(\x7b\"age\":\x7b\"$gt\":21\x7d\x7d).limit(5)") =
      .ok (.find (strL "users") (Json.obj []) 5) ∧
    jsonParse (strL "\x7b\"age\":\x7b\"$gt\":21\x7d\x7d") =
      some (Json.obj [(strL "age", Json.obj [(strL "$gt", Json.num (strL "21"))])]) :=
  ⟨rfl, rfl⟩

/-- Shape analysis of the command endpoint: every request ends in one
of the three literal response constructions of the handler. -/
theorem executeCommand_shape (dbRun : DbOp → Except (List Char) Json)
    (command : List Char) (t0 t1 : Int) :
    (∃ e, (executeCommand dbRun command t0 t1).response = badResp e) ∨
    (∃ r, (executeCommand dbRun command t0 t1).response = okResp r (t1 - t0)) ∨
    (∃ e, (executeCommand dbRun command t0 t1).response = failResp e) := by
  by_cases hne : command.isEmpty = true
  · exact .inl ⟨strL "Command is required", by simp [executeCommand, hne]⟩
  · cases hj : jsonParse command with
    | some doc =>
      cases hd : dbRun (.command doc) with
      | ok r => exact .inr (.inl ⟨r, by simp [executeCommand, hne, hj, hd]⟩)
      | error e =>
        cases hs : shellClassify command with
        | error m =>
          exact .inr (.inr ⟨m, by simp [executeCommand, shellRun, hne, hj, hd, hs]⟩)
        | ok op =>
          cases hr : dbRun op with
          | ok r2 =>
            exact .inr (.inl ⟨r2, by simp [executeCommand, shellRun, hne, hj, hd, hs, hr]⟩)
          | error e2 =>
            exact .inr (.inr ⟨e2, by simp [executeCommand, shellRun, hne, hj, hd, hs, hr]⟩)
    | none =>
      cases hs : shellClassify command with
      | error m =>
        exact .inr (.inr ⟨m, by simp [executeCommand, shellRun, hne, hj, hs]⟩)
      | ok op =>
        cases hr : dbRun op with
        | ok r2 =>
          exact .inr (.inl ⟨r2, by simp [executeCommand, shellRun, hne, hj, hs, hr]⟩)
        | error e2 =>
          exact .inr (.inr ⟨e2, by simp [executeCommand, shellRun, hne, hj, hs, hr]⟩)

/-- C3, counterexample.  The claim says the elapsed-time field is
always produced, on success and failure alike; but the failure branch
of the handler serialises only `success` and `error` — here a failing
command yields `success:false` with NO executionTime field. -/
theorem c3_counterexample :
    (executeCommand dbRunOkAll (strL "frobnicate") 0 7).response.success = some false ∧
    (executeCommand dbRunOkAll (strL "frobnicate") 0 7).response.executionTime = none :=
  ⟨rfl, rfl⟩

set_option linter.unnecessarySeqFocus false in
/-- C3, amended.  Success responses (status 200) carry `success:true`
and `executionTime = t1 - t0 ≥ 0` (under a monotone clock); failure
responses (status 500) carry `success:false` and an error message but
no executionTime field; the missing-command response (status 400)
likewise has an error and no executionTime. -/
theorem c3_theorem (dbRun : DbOp → Except (List Char) Json)
    (command : List Char) (t0 t1 : Int) (hmono : t0 ≤ t1) :
    ((executeCommand dbRun command t0 t1).response.status = 200 →
      (executeCommand dbRun command t0 t1).response.success = some true ∧
      (executeCommand dbRun command t0 t1).response.executionTime = some (t1 - t0) ∧
      0 ≤ t1 - t0) ∧
    ((executeCommand dbRun command t0 t1).response.status = 500 →
      (executeCommand dbRun command t0 t1).response.success = some false ∧
      (executeCommand dbRun command t0 t1).response.executionTime = none ∧
      ∃ e, (executeCommand dbRun command t0 t1).response.error = some e) ∧
    ((executeCommand dbRun command t0 t1).response.status = 400 →
      (executeCommand dbRun command t0 t1).response.executionTime = none ∧
      ∃ e, (executeCommand dbRun command t0 t1).response.error = some e) := by
  rcases executeCommand_shape dbRun command t0 t1 with ⟨e, he⟩ | ⟨r, he⟩ | ⟨e, he⟩ <;>
    (rw [he]; refine ⟨?_, ?_, ?_⟩) <;> intro hst <;>
    simp [okResp, failResp, badResp] at hst ⊢ <;> omega

/-- C3, witness for the amended theorem: a succeeding command at clock
values 0 and 7, and a failing one. -/
theorem c3_witness :
    (executeCommand dbRunOkAll (strL "stats") 0 7).response.executionTime = some 7 ∧
    (executeCommand dbRunOkAll (strL "nonsense") 0 7).response.executionTime = none :=
  ⟨by
    have h := (c3_theorem dbRunOkAll (strL "stats") 0 7 (by decide)).1 rfl
    simpa using h.2.1,
   by
    have h := ((c3_theorem dbRunOkAll (strL "nonsense") 0 7 (by decide)).2.1) rfl
    exact h.2.1⟩

/-- C4.  A nonempty command text that parses to `Unrecognized`
short-circuits: the handler performs no database operation at all
(the ops trace is empty, for every environment) and answers with the
failed envelope `success:false` carrying the parser's diagnostic.
(The empty text is rejected before parsing by the endpoint's
`Command is required` request validation.) -/
theorem c4_theorem (dbRun : DbOp → Except (List Char) Json)
    (command : List Char) (t0 t1 : Int) (reason : List Char)
    (hne : command ≠ []) (hp : parseCommand command = .unrecognized reason) :
    executeCommand dbRun command t0 t1 = ⟨[], failResp reason⟩ := by
  unfold parseCommand at hp
  have hni : command.isEmpty = false := by
    cases command with
    | nil => exact absurd rfl hne
    | cons a t => rfl
  cases hj : jsonParse command with
  | some d => rw [hj] at hp; cases hp
  | none =>
    rw [hj] at hp
    cases hs : shellClassify command with
    | ok op => rw [hs] at hp; cases hp
    | error m =>
      rw [hs] at hp
      injection hp with hm
      subst hm
      simp [executeCommand, shellRun, hni, hj, hs]

/-- C4, witness: the unrecognized input `frobnicate` produces the
failed envelope with the parser's diagnostic and an empty ops trace. -/
theorem c4_witness :
    parseCommand (strL "frobnicate") =
      .unrecognized (msgUnsupportedCommand (strL "frobnicate")) ∧
    executeCommand dbRunOkAll (strL "frobnicate") 0 7 =
      ⟨[], failResp (msgUnsupportedCommand (strL "frobnicate"))⟩ :=
  ⟨rfl, c4_theorem dbRunOkAll (strL "frobnicate") 0 7
    (msgUnsupportedCommand (strL "frobnicate")) (by decide) rfl⟩

/-- C5.  Parsing is total: every command text yields exactly one
`ParsedCommand` variant (never a thrown fault), and for every
environment — database failures included — the request terminates in
one of the handler's structured envelopes: success with a payload, or
a response carrying a textual error. -/
theorem c5_theorem (dbRun : DbOp → Except (List Char) Json)
    (command : List Char) (t0 t1 : Int) :
    ((∃ d, parseCommand command = .raw d) ∨
     (∃ op, parseCommand command = .action op) ∨
     (∃ m, parseCommand command = .unrecognized m)) ∧
    (((executeCommand dbRun command t0 t1).response.success = some true ∧
      ((executeCommand dbRun command t0 t1).response.result).isSome = true ∧
      (executeCommand dbRun command t0 t1).response.error = none) ∨
     ((executeCommand dbRun command t0 t1).response.error).isSome = true) := by
  constructor
  · unfold parseCommand
    cases jsonParse command with
    | some d => exact .inl ⟨d, rfl⟩
    | none =>
      cases shellClassify command with
      | ok op => exact .inr (.inl ⟨op, rfl⟩)
      | error m => exact .inr (.inr ⟨m, rfl⟩)
  · rcases executeCommand_shape dbRun command t0 t1 with ⟨e, he⟩ | ⟨r, he⟩ | ⟨e, he⟩ <;>
      rw [he]
    · exact .inr rfl
    · exact .inl ⟨rfl, rfl, rfl⟩
    · exact .inr rfl

/-! Toolkit lemmas about the character-list scanners, used by the
symbolic parser theorems below. -/

theorem dropWhile_cons_of_neg {p : Char → Bool} {c : Char} (l : List Char)
    (h : p c = false) : (c :: l).dropWhile p = c :: l := by
  simp [List.dropWhile_cons, h]

theorem takeWhile_append_of_all {p : Char → Bool} (xs : List Char) {c : Char}
    (ys : List Char) (hall : ∀ a ∈ xs, p a = true) (hc : p c = false) :
    (xs ++ c :: ys).takeWhile p = xs := by
  induction xs with
  | nil => simp [List.takeWhile_cons, hc]
  | cons a t ih =>
    have ha : p a = true := hall a (by simp)
    simp only [List.cons_append, List.takeWhile_cons, ha, if_true]
    rw [ih (fun b hb => hall b (by simp [hb]))]

theorem takeWhile_all_of_all {p : Char → Bool} (xs : List Char)
    (hall : ∀ a ∈ xs, p a = true) : xs.takeWhile p = xs := by
  induction xs with
  | nil => rfl
  | cons a t ih =>
    have ha : p a = true := hall a (by simp)
    simp only [List.takeWhile_cons, ha, if_true]
    rw [ih (fun b hb => hall b (by simp [hb]))]

theorem takeWhile_nil_of_all_neg {p : Char → Bool} (xs : List Char)
    (hall : ∀ a ∈ xs, p a = false) : xs.takeWhile p = [] := by
  cases xs with
  | nil => rfl
  | cons a t => simp [List.takeWhile_cons, hall a (by simp)]

theorem trimLeft_cons_of_neg {c : Char} (l : List Char) (h : isWs c = false) :
    trimLeft (c :: l) = c :: l := by
  unfold trimLeft
  exact dropWhile_cons_of_neg l h

theorem trimRight_concat {e : Char} (l : List Char) (he : isWs e = false) :
    trimRight (l ++ [e]) = l ++ [e] := by
  unfold trimRight
  rw [List.reverse_append]
  show (List.dropWhile isWs (e :: l.reverse)).reverse = l ++ [e]
  rw [dropWhile_cons_of_neg _ he, List.reverse_cons, List.reverse_reverse]

theorem trimList_sandwich {c e : Char} (mid : List Char)
    (hc : isWs c = false) (he : isWs e = false) :
    trimList (c :: (mid ++ [e])) = c :: (mid ++ [e]) := by
  unfold trimList
  rw [trimLeft_cons_of_neg _ hc]
  rw [show c :: (mid ++ [e]) = (c :: mid) ++ [e] from rfl]
  exact trimRight_concat _ he

theorem map_eq_cons_split {f : Char → Char} {l out : List Char} {y : Char}
    (h : l.map f = y :: out) : ∃ x xs, l = x :: xs ∧ f x = y ∧ xs.map f = out := by
  cases l with
  | nil => cases h
  | cons x xs =>
    rw [List.map_cons] at h
    injection h with h1 h2
    exact ⟨x, xs, rfl, h1, h2⟩

theorem not_ws_of_wordChar {c : Char} (h : isWordChar c = true) : isWs c = false := by
  cases hws : isWs c with
  | false => rfl
  | true =>
    exfalso
    unfold isWs at hws
    simp only [Bool.or_eq_true, beq_iff_eq] at hws
    rcases hws with ((((h1 | h1) | h1) | h1) | h1) | h1 <;> subst h1 <;>
      exact absurd h (by decide)
set_option maxHeartbeats 1000000 in
theorem wordChar_lower {c : Char} (h : isWordChar c = true) :
    isWordChar (lowerChar c) = true := by
  unfold lowerChar
  by_cases h0 : (c == 'A') = true
  · rw [if_pos h0]; decide
  rw [if_neg h0]
  by_cases h1 : (c == 'B') = true
  · rw [if_pos h1]; decide
  rw [if_neg h1]
  by_cases h2 : (c == 'C') = true
  · rw [if_pos h2]; decide
  rw [if_neg h2]
  by_cases h3 : (c == 'D') = true
  · rw [if_pos h3]; decide
  rw [if_neg h3]
  by_cases h4 : (c == 'E') = true
  · rw [if_pos h4]; decide
  rw [if_neg h4]
  by_cases h5 : (c == 'F') = true
  · rw [if_pos h5]; decide
  rw [if_neg h5]
  by_cases h6 : (c == 'G') = true
  · rw [if_pos h6]; decide
  rw [if_neg h6]
  by_cases h7 : (c == 'H') = true
  · rw [if_pos h7]; decide
  rw [if_neg h7]
  by_cases h8 : (c == 'I') = true
  · rw [if_pos h8]; decide
  rw [if_neg h8]
  by_cases h9 : (c == 'J') = true
  · rw [if_pos h9]; decide
  rw [if_neg h9]
  by_cases h10 : (c == 'K') = true
  · rw [if_pos h10]; decide
  rw [if_neg h10]
  by_cases h11 : (c == 'L') = true
  · rw [if_pos h11]; decide
  rw [if_neg h11]
  by_cases h12 : (c == 'M') = true
  · rw [if_pos h12]; decide
  rw [if_neg h12]
  by_cases h13 : (c == 'N') = true
  · rw [if_pos h13]; decide
  rw [if_neg h13]
  by_cases h14 : (c == 'O') = true
  · rw [if_pos h14]; decide
  rw [if_neg h14]
  by_cases h15 : (c == 'P') = true
  · rw [if_pos h15]; decide
  rw [if_neg h15]
  by_cases h16 : (c == 'Q') = true
  · rw [if_pos h16]; decide
  rw [if_neg h16]
  by_cases h17 : (c == 'R') = true
  · rw [if_pos h17]; decide
  rw [if_neg h17]
  by_cases h18 : (c == 'S') = true
  · rw [if_pos h18]; decide
  rw [if_neg h18]
  by_cases h19 : (c == 'T') = true
  · rw [if_pos h19]; decide
  rw [if_neg h19]
  by_cases h20 : (c == 'U') = true
  · rw [if_pos h20]; decide
  rw [if_neg h20]
  by_cases h21 : (c == 'V') = true
  · rw [if_pos h21]; decide
  rw [if_neg h21]
  by_cases h22 : (c == 'W') = true
  · rw [if_pos h22]; decide
  rw [if_neg h22]
  by_cases h23 : (c == 'X') = true
  · rw [if_pos h23]; decide
  rw [if_neg h23]
  by_cases h24 : (c == 'Y') = true
  · rw [if_pos h24]; decide
  rw [if_neg h24]
  by_cases h25 : (c == 'Z') = true
  · rw [if_pos h25]; decide
  rw [if_neg h25]
  exact h

theorem searchParenArg_of_strip {needle u : List Char} (c : Char) (cs : List Char)
    (hci : ciStrip needle (c :: cs) = some (u ++ [')']))
    (hu : ∀ a ∈ u, (a == ')') = false) :
    searchParenArg needle (c :: cs) = some u := by
  have hcap : (u ++ [')']).takeWhile (fun a => !(a == ')')) = u := by
    rw [show u ++ [')'] = u ++ ')' :: [] from rfl]
    exact takeWhile_append_of_all u []
      (fun a ha => by rw [Bool.not_eq_true']; exact hu a ha) rfl
  have hdrop : (u ++ [')']).drop u.length = [')'] := List.drop_left u [')']
  have hmid : parenArgAt needle (c :: cs) =
      (match (u ++ [')']).drop
          ((u ++ [')']).takeWhile (fun a => !(a == ')'))).length with
       | ')' :: _ => some ((u ++ [')']).takeWhile (fun a => !(a == ')')))
       | _ => none) := by
    unfold parenArgAt
    rw [hci]
  have hpaa : parenArgAt needle (c :: cs) = some u := by
    rw [hmid, hcap, hdrop]
    rfl
  simp only [searchParenArg, hpaa]

/-- C6.  Lenient-vs-strict asymmetry of embedded JSON arguments: a
malformed (non-JSON) argument to the five collection read-style
methods silently degrades to the empty default — empty filter for
find/findOne/countDocuments, empty pipeline for aggregate, empty index
spec for createIndex — without failing the command, whereas ANY
argument text that is not valid JSON (malformed or missing) inside
`db.adminCommand(...)` or `db.runCommand(...)` is a hard parse failure
with no fallback. -/
theorem c6_theorem (u : List Char) (hnp : ∀ a ∈ u, (a == ')') = false)
    (hj : jsonParse u = none) :
    shellClassify (strL "db.users.find(notjson)") =
      .ok (.find (strL "users") (Json.obj []) 10) ∧
    shellClassify (strL "db.users.findOne(notjson)") =
      .ok (.findOne (strL "users") (Json.obj [])) ∧
    shellClassify (strL "db.users.countDocuments(notjson)") =
      .ok (.countDocuments (strL "users") (Json.obj [])) ∧
    shellClassify (strL "db.users.aggregate(notjson)") =
      .ok (.aggregate (strL "users") (Json.arr [])) ∧
    shellClassify (strL "db.users.createIndex(notjson)") =
      .ok (.createIndex (strL "users") (Json.obj [])) ∧
    shellClassify (strL "db.adminCommand(" ++ (u ++ [')'])) =
      .error msgInvalidAdmin ∧
    shellClassify (strL "db.runCommand(" ++ (u ++ [')'])) =
      .error msgInvalidRun := by
  refine ⟨rfl, rfl, rfl, rfl, rfl, ?_, ?_⟩
  · have hassoc : strL "db.adminCommand(" ++ (u ++ [')']) =
        'd' :: ((strL "b.adminCommand(" ++ u) ++ [')']) := by
      rw [show strL "db.adminCommand(" ++ (u ++ [')']) =
          'd' :: (strL "b.adminCommand(" ++ (u ++ [')'])) from rfl,
        ← List.append_assoc]
    have htrim : trimList (strL "db.adminCommand(" ++ (u ++ [')'])) =
        strL "db.adminCommand(" ++ (u ++ [')']) := by
      rw [hassoc]
      exact trimList_sandwich _ rfl rfl
    unfold shellClassify
    rw [htrim]
    show dbBranch (trimList (strL "adminCommand(" ++ (u ++ [')']))) =
      Except.error msgInvalidAdmin
    have hassoc2 : strL "adminCommand(" ++ (u ++ [')']) =
        'a' :: ((strL "dminCommand(" ++ u) ++ [')']) := by
      rw [show strL "adminCommand(" ++ (u ++ [')']) =
          'a' :: (strL "dminCommand(" ++ (u ++ [')'])) from rfl,
        ← List.append_assoc]
    have htrim2 : trimList (strL "adminCommand(" ++ (u ++ [')'])) =
        strL "adminCommand(" ++ (u ++ [')']) := by
      rw [hassoc2]
      exact trimList_sandwich _ rfl rfl
    rw [htrim2]
    rw [show dbBranch (strL "adminCommand(" ++ (u ++ [')'])) =
        (match searchParenArg (strL "admincommand(")
            (strL "adminCommand(" ++ (u ++ [')'])) with
         | some cap =>
           (match jsonParse cap with
            | some doc => Except.ok (DbOp.adminCommand doc)
            | none => Except.error msgInvalidAdmin)
         | none => Except.error msgInvalidAdmin) from rfl]
    have hsp : searchParenArg (strL "admincommand(")
        (strL "adminCommand(" ++ (u ++ [')'])) = some u :=
      searchParenArg_of_strip 'a' (strL "dminCommand(" ++ (u ++ [')'])) rfl hnp
    rw [hsp]
    show (match jsonParse u with
          | some doc => Except.ok (DbOp.adminCommand doc)
          | none => Except.error msgInvalidAdmin) = Except.error msgInvalidAdmin
    rw [hj]
  · have hassoc : strL "db.runCommand(" ++ (u ++ [')']) =
        'd' :: ((strL "b.runCommand(" ++ u) ++ [')']) := by
      rw [show strL "db.runCommand(" ++ (u ++ [')']) =
          'd' :: (strL "b.runCommand(" ++ (u ++ [')'])) from rfl,
        ← List.append_assoc]
    have htrim : trimList (strL "db.runCommand(" ++ (u ++ [')'])) =
        strL "db.runCommand(" ++ (u ++ [')']) := by
      rw [hassoc]
      exact trimList_sandwich _ rfl rfl
    unfold shellClassify
    rw [htrim]
    show dbBranch (trimList (strL "runCommand(" ++ (u ++ [')']))) =
      Except.error msgInvalidRun
    have hassoc2 : strL "runCommand(" ++ (u ++ [')']) =
        'r' :: ((strL "unCommand(" ++ u) ++ [')']) := by
      rw [show strL "runCommand(" ++ (u ++ [')']) =
          'r' :: (strL "unCommand(" ++ (u ++ [')'])) from rfl,
        ← List.append_assoc]
    have htrim2 : trimList (strL "runCommand(" ++ (u ++ [')'])) =
        strL "runCommand(" ++ (u ++ [')']) := by
      rw [hassoc2]
      exact trimList_sandwich _ rfl rfl
    rw [htrim2]
    rw [show dbBranch (strL "runCommand(" ++ (u ++ [')'])) =
        (match searchParenArg (strL "runcommand(")
            (strL "runCommand(" ++ (u ++ [')'])) with
         | some cap =>
           (match jsonParse cap with
            | some doc => Except.ok (DbOp.command doc)
            | none => Except.error msgInvalidRun)
         | none => Except.error msgInvalidRun) from rfl]
    have hsp : searchParenArg (strL "runcommand(")
        (strL "runCommand(" ++ (u ++ [')'])) = some u :=
      searchParenArg_of_strip 'r' (strL "unCommand(" ++ (u ++ [')'])) rfl hnp
    rw [hsp]
    show (match jsonParse u with
          | some doc => Except.ok (DbOp.command doc)
          | none => Except.error msgInvalidRun) = Except.error msgInvalidRun
    rw [hj]

/-- C6, witness: the admin-strictness conjunct applied at the
argument text `notjson`. -/
theorem c6_witness :
    shellClassify (strL "db.adminCommand(" ++ (strL "notjson" ++ [')'])) =
      .error msgInvalidAdmin :=
  (c6_theorem (strL "notjson") (by decide) rfl).2.2.2.2.2.1

/-- Scanner lemma: a `/kw\s+(\w+)/` match found at position zero is the
leftmost match. -/
theorem searchKwName_head {kw : List Char} (c : Char) (cs : List Char) {w : List Char}
    (hat : kwNameAt kw (c :: cs) = some w) :
    searchKwName kw (c :: cs) = some w := by
  simp only [searchKwName, hat]

/-- Scanner lemma: after the keyword, one space followed by a nonempty
all-word-character token is captured whole. -/
theorem wsName_space {L : List Char} (hw : ∀ c ∈ L, isWordChar c = true)
    (hne : L ≠ []) : wsName (' ' :: L) = some L := by
  have hnw : ∀ c ∈ L, isWs c = false := fun c hc => not_ws_of_wordChar (hw c hc)
  have htw : (' ' :: L).takeWhile isWs = [' '] :=
    calc (' ' :: L).takeWhile isWs = ' ' :: L.takeWhile isWs := rfl
    _ = [' '] := by rw [takeWhile_nil_of_all_neg L hnw]
  have htwc : L.takeWhile isWordChar = L := takeWhile_all_of_all L hw
  have hLe : L.isEmpty = false := by
    cases L with
    | nil => exact absurd rfl hne
    | cons a t => rfl
  have step1 : wsName (' ' :: L) =
      (if (L.takeWhile isWordChar).isEmpty = true then none
       else some (L.takeWhile isWordChar)) := by
    unfold wsName
    rw [htw]
    rfl
  rw [step1, htwc, hLe]
  rfl

/-- C9.  In the bare keyword forms `dropcollection <name>` and
`createcollection <name>`, the name token is extracted from the
LOWERCASED trimmed input (the source applies `/...\s+(\w+)/` to
`lowerTrimmed`), so the operation targets the lowercased name, not the
name as typed. -/
theorem c9_theorem (name : List Char) (hne : name ≠ [])
    (hword : ∀ c ∈ name, isWordChar c = true) :
    shellClassify (strL "dropcollection " ++ name) =
      .ok (.dropColl (lowerAscii name)) ∧
    shellClassify (strL "createcollection " ++ name) =
      .ok (.createCollection (lowerAscii name)) := by
  rcases hrev : name.reverse with _ | ⟨e, rr⟩
  · exact absurd (by simpa using congrArg List.reverse hrev) hne
  have hname : name = rr.reverse ++ [e] := by
    have h := congrArg List.reverse hrev
    simpa using h
  have he : e ∈ name := by
    rw [hname]
    simp
  have hLw : ∀ c ∈ lowerAscii name, isWordChar c = true := by
    intro c hc
    unfold lowerAscii at hc
    rcases List.mem_map.mp hc with ⟨b, hb, hbe⟩
    rw [← hbe]
    exact wordChar_lower (hword b hb)
  have hLne : lowerAscii name ≠ [] := by
    unfold lowerAscii
    intro h0
    exact hne (List.map_eq_nil_iff.mp h0)
  constructor
  · have htrim : trimList (strL "dropcollection " ++ name) =
        strL "dropcollection " ++ name := by
      rw [hname, ← List.append_assoc]
      rw [show (strL "dropcollection " ++ rr.reverse) ++ [e] =
          'd' :: ((strL "ropcollection " ++ rr.reverse) ++ [e]) from rfl]
      exact trimList_sandwich _ rfl (not_ws_of_wordChar (hword e he))
    have hlow : lowerAscii (strL "dropcollection " ++ name) =
        strL "dropcollection " ++ lowerAscii name := by
      unfold lowerAscii
      rw [List.map_append]
      rfl
    unfold shellClassify
    rw [htrim]
    show bareClassify (strL "dropcollection " ++ name)
        (lowerAscii (strL "dropcollection " ++ name)) =
      Except.ok (DbOp.dropColl (lowerAscii name))
    rw [hlow]
    rw [show bareClassify (strL "dropcollection " ++ name)
        (strL "dropcollection " ++ lowerAscii name) =
        (match searchKwName (strL "dropcollection")
            (strL "dropcollection " ++ lowerAscii name) with
         | some nm => Except.ok (DbOp.dropColl nm)
         | none => Except.error msgInvalidDropColBare) from rfl]
    have hat : kwNameAt (strL "dropcollection")
        (strL "dropcollection " ++ lowerAscii name) = some (lowerAscii name) := by
      rw [show kwNameAt (strL "dropcollection")
          (strL "dropcollection " ++ lowerAscii name) =
          wsName (' ' :: lowerAscii name) from rfl]
      exact wsName_space hLw hLne
    have hsk : searchKwName (strL "dropcollection")
        (strL "dropcollection " ++ lowerAscii name) = some (lowerAscii name) :=
      searchKwName_head 'd' (strL "ropcollection " ++ lowerAscii name) hat
    rw [hsk]
  · have htrim : trimList (strL "createcollection " ++ name) =
        strL "createcollection " ++ name := by
      rw [hname, ← List.append_assoc]
      rw [show (strL "createcollection " ++ rr.reverse) ++ [e] =
          'c' :: ((strL "reatecollection " ++ rr.reverse) ++ [e]) from rfl]
      exact trimList_sandwich _ rfl (not_ws_of_wordChar (hword e he))
    have hlow : lowerAscii (strL "createcollection " ++ name) =
        strL "createcollection " ++ lowerAscii name := by
      unfold lowerAscii
      rw [List.map_append]
      rfl
    unfold shellClassify
    rw [htrim]
    show bareClassify (strL "createcollection " ++ name)
        (lowerAscii (strL "createcollection " ++ name)) =
      Except.ok (DbOp.createCollection (lowerAscii name))
    rw [hlow]
    rw [show bareClassify (strL "createcollection " ++ name)
        (strL "createcollection " ++ lowerAscii name) =
        (match searchKwName (strL "createcollection")
            (strL "createcollection " ++ lowerAscii name) with
         | some nm => Except.ok (DbOp.createCollection nm)
         | none => Except.error msgInvalidCreateColBare) from rfl]
    have hat : kwNameAt (strL "createcollection")
        (strL "createcollection " ++ lowerAscii name) = some (lowerAscii name) := by
      rw [show kwNameAt (strL "createcollection")
          (strL "createcollection " ++ lowerAscii name) =
          wsName (' ' :: lowerAscii name) from rfl]
      exact wsName_space hLw hLne
    have hsk : searchKwName (strL "createcollection")
        (strL "createcollection " ++ lowerAscii name) = some (lowerAscii name) :=
      searchKwName_head 'c' (strL "reatecollection " ++ lowerAscii name) hat
    rw [hsk]

/-- C9, witness: `dropcollection Orders` drops the collection named
`orders`, not `Orders`. -/
theorem c9_witness :
    shellClassify (strL "dropcollection " ++ strL "Orders") =
      .ok (.dropColl (strL "orders")) :=
  (c9_theorem (strL "Orders") (by decide) (by decide)).1

/-! Lemmas for refuting the `/^db\./i` guard from facts about the
lowercased trimmed text. -/

theorem dbGuard_false_fst {c1 : Char} {T1 : List Char}
    (h : (lowerChar c1 == 'd') = false) : dbGuard (c1 :: T1) = false := by
  cases T1 with
  | nil => rfl
  | cons c2 T2 =>
    cases T2 with
    | nil => rfl
    | cons c3 T3 => simp [dbGuard, h]

theorem dbGuard_false_snd {c1 c2 : Char} {T2 : List Char}
    (h : (lowerChar c2 == 'b') = false) : dbGuard (c1 :: c2 :: T2) = false := by
  cases T2 with
  | nil => rfl
  | cons c3 T3 => simp [dbGuard, h]

theorem dbGuard_false_trd {c1 c2 c3 : Char} {T3 : List Char}
    (h : (c3 == '.') = false) : dbGuard (c1 :: c2 :: c3 :: T3) = false := by
  simp [dbGuard, h]

/-- When the `/^db\./i` guard fails, the classifier takes the
bare-keyword branch. -/
theorem shellClassify_bare_of_guard {cmd : List Char}
    (hguard : dbGuard (trimList cmd) = false) :
    shellClassify cmd = bareClassify cmd (lowerAscii (trimList cmd)) := by
  unfold shellClassify
  rw [hguard]
  rfl

/-- C10, amended.  The five keywords listdatabases, listcollections,
dropdatabase, createcollection, dropcollection are matched by
case-insensitive prefix of the trimmed input while stats/dbstats and
serverstatus require exact equality (`statsx` is rejected); however a
prefix match on createcollection (or dropcollection) only selects the
branch — the action itself is triggered only when the keyword is
followed by whitespace and a name token, otherwise the command fails
with a syntax diagnostic (see the counterexample). -/
theorem c10_theorem :
    (∀ cmd t', lowerAscii (trimList cmd) = strL "listdatabases" ++ t' →
      shellClassify cmd = .ok .listDatabases) ∧
    (∀ cmd t', lowerAscii (trimList cmd) = strL "listcollections" ++ t' →
      shellClassify cmd = .ok .listCollections) ∧
    (∀ cmd t', lowerAscii (trimList cmd) = strL "dropdatabase" ++ t' →
      shellClassify cmd = .ok .dropDatabase) ∧
    (∀ cmd, lowerAscii (trimList cmd) = strL "stats" ∨
        lowerAscii (trimList cmd) = strL "dbstats" →
      shellClassify cmd = .ok .stats) ∧
    (∀ cmd, lowerAscii (trimList cmd) = strL "serverstatus" →
      shellClassify cmd = .ok .serverStatus) ∧
    (∀ cmd t', lowerAscii (trimList cmd) = strL "createcollection" ++ t' →
      searchKwName (strL "createcollection") (lowerAscii (trimList cmd)) = none →
      shellClassify cmd = .error msgInvalidCreateColBare) ∧
    shellClassify (strL "statsx") = .error (msgUnsupportedCommand (strL "statsx")) := by
  refine ⟨?_, ?_, ?_, ?_, ?_, ?_, rfl⟩
  · intro cmd t' hlt
    obtain ⟨c1, T1, hT, hc1, hm1⟩ := map_eq_cons_split
      (show (trimList cmd).map lowerChar = 'l' :: (strL "istdatabases" ++ t') from hlt)
    have hguard : dbGuard (trimList cmd) = false := by
      rw [hT]
      exact dbGuard_false_fst (by rw [hc1]; rfl)
    rw [shellClassify_bare_of_guard hguard, hlt]
    rfl
  · intro cmd t' hlt
    obtain ⟨c1, T1, hT, hc1, hm1⟩ := map_eq_cons_split
      (show (trimList cmd).map lowerChar = 'l' :: (strL "istcollections" ++ t') from hlt)
    have hguard : dbGuard (trimList cmd) = false := by
      rw [hT]
      exact dbGuard_false_fst (by rw [hc1]; rfl)
    rw [shellClassify_bare_of_guard hguard, hlt]
    rfl
  · intro cmd t' hlt
    obtain ⟨c1, T1, hT, hc1, hm1⟩ := map_eq_cons_split
      (show (trimList cmd).map lowerChar = 'd' :: (strL "ropdatabase" ++ t') from hlt)
    obtain ⟨c2, T2, hT1, hc2, hm2⟩ := map_eq_cons_split
      (show T1.map lowerChar = 'r' :: (strL "opdatabase" ++ t') from hm1)
    have hguard : dbGuard (trimList cmd) = false := by
      rw [hT, hT1]
      exact dbGuard_false_snd (by rw [hc2]; rfl)
    rw [shellClassify_bare_of_guard hguard, hlt]
    rfl
  · intro cmd hlt
    rcases hlt with hlt | hlt
    · obtain ⟨c1, T1, hT, hc1, hm1⟩ := map_eq_cons_split
        (show (trimList cmd).map lowerChar = 's' :: strL "tats" from hlt)
      have hguard : dbGuard (trimList cmd) = false := by
        rw [hT]
        exact dbGuard_false_fst (by rw [hc1]; rfl)
      rw [shellClassify_bare_of_guard hguard, hlt]
      rfl
    · obtain ⟨c1, T1, hT, hc1, hm1⟩ := map_eq_cons_split
        (show (trimList cmd).map lowerChar = 'd' :: strL "bstats" from hlt)
      obtain ⟨c2, T2, hT1, hc2, hm2⟩ := map_eq_cons_split
        (show T1.map lowerChar = 'b' :: strL "stats" from hm1)
      obtain ⟨c3, T3, hT2, hc3, hm3⟩ := map_eq_cons_split
        (show T2.map lowerChar = 's' :: strL "tats" from hm2)
      have hdot : (c3 == '.') = false := by
        cases hb : c3 == '.' with
        | false => rfl
        | true =>
          have he : c3 = '.' := eq_of_beq hb
          rw [he] at hc3
          exact absurd hc3 (by decide)
      have hguard : dbGuard (trimList cmd) = false := by
        rw [hT, hT1, hT2]
        exact dbGuard_false_trd hdot
      rw [shellClassify_bare_of_guard hguard, hlt]
      rfl
  · intro cmd hlt
    obtain ⟨c1, T1, hT, hc1, hm1⟩ := map_eq_cons_split
      (show (trimList cmd).map lowerChar = 's' :: strL "erverstatus" from hlt)
    have hguard : dbGuard (trimList cmd) = false := by
      rw [hT]
      exact dbGuard_false_fst (by rw [hc1]; rfl)
    rw [shellClassify_bare_of_guard hguard, hlt]
    rfl
  · intro cmd t' hlt hsearch
    obtain ⟨c1, T1, hT, hc1, hm1⟩ := map_eq_cons_split
      (show (trimList cmd).map lowerChar = 'c' :: (strL "reatecollection" ++ t') from hlt)
    have hguard : dbGuard (trimList cmd) = false := by
      rw [hT]
      exact dbGuard_false_fst (by rw [hc1]; rfl)
    rw [hlt] at hsearch
    rw [shellClassify_bare_of_guard hguard, hlt]
    rw [show bareClassify cmd (strL "createcollection" ++ t') =
        (match searchKwName (strL "createcollection") (strL "createcollection" ++ t') with
         | some nm => Except.ok (DbOp.createCollection nm)
         | none => Except.error msgInvalidCreateColBare) from rfl]
    rw [hsearch]

/-- C10, counterexample.  The claim says every input whose lowercased
trimmed text starts with one of the five keywords triggers the
corresponding action; but `createcollectionxyz` starts with
`createcollection` and triggers no action at all — the branch throws
the invalid-syntax diagnostic because no whitespace-separated name
token follows. -/
theorem c10_counterexample :
    shellClassify (strL "createcollectionxyz") = .error msgInvalidCreateColBare :=
  rfl

/-- C10, witness for the amended theorem: `dropdatabaseXYZ` still
triggers dropDatabase by prefix matching, and `STATS` matches the
exact-equality keyword after lowercasing. -/
theorem c10_witness :
    shellClassify (strL "dropdatabaseXYZ") = .ok .dropDatabase ∧
    shellClassify (strL "STATS") = .ok .stats :=
  ⟨c10_theorem.2.2.1 (strL "dropdatabaseXYZ") (strL "xyz") rfl,
   c10_theorem.2.2.2.1 (strL "STATS") (Or.inl rfl)⟩
